import Mathlib

/-
  Verification of the organization-planning and undo engine of the
  AIsmartStorage repository.

  The embedding below follows the TypeScript sources:
  - src/utils/fileTypes.ts   (file classifier: getExtension, getFileType)
  - src/utils/organizer.ts   (plan generator, destination resolvers, stats)
  - src/stores/preview.ts    (simulateFileReorganization)
  - src/stores/history.ts    (history ledger: addBatch, undoBatch, undoLast)

  JavaScript strings are modelled as Lean strings (lists of characters),
  JavaScript numbers holding byte counts as Nat, and JS Date values as a
  plain year/month/day record carrying the fields the organizer reads.
  The nondeterministic generateId of utils/helpers.ts and the wall clock
  are modelled as explicit parameters (an id supply Nat -> String and a
  Date), so that every function is pure and total.  Persistence
  (IndexedDB) is an external collaborator; it is modelled as infallible,
  which makes the catch branches of the history store unreachable.
-/

namespace AISmartStorage

/-- Calendar date; models the JS Date fields read by the organizer.
    The month is stored 1-based, as produced by date.getMonth() + 1. -/
structure Date where
  year : Nat
  month : Nat
  day : Nat
deriving DecidableEq

/-- The FileType union of src/types/index.ts. -/
inductive FileType where
  | document | image | video | audio | archive | code | spreadsheet | presentation | pdf | other
deriving DecidableEq

/-- FILE_TYPE_NAMES of src/utils/fileTypes.ts. -/
def FILE_TYPE_NAMES : FileType → String
  | FileType.document => "Documents"
  | FileType.pdf => "PDFs"
  | FileType.spreadsheet => "Spreadsheets"
  | FileType.presentation => "Presentations"
  | FileType.image => "Images"
  | FileType.video => "Videos"
  | FileType.audio => "Audio"
  | FileType.archive => "Archives"
  | FileType.code => "Code"
  | FileType.other => "Other Files"

/-- FILE_TYPE_MAP of src/utils/fileTypes.ts: extension to file type. -/
def FILE_TYPE_MAP : List (String × FileType) :=
  [("doc", FileType.document), ("docx", FileType.document), ("txt", FileType.document),
   ("rtf", FileType.document), ("odt", FileType.document), ("md", FileType.document),
   ("tex", FileType.document),
   ("pdf", FileType.pdf),
   ("xls", FileType.spreadsheet), ("xlsx", FileType.spreadsheet), ("csv", FileType.spreadsheet),
   ("ods", FileType.spreadsheet), ("numbers", FileType.spreadsheet),
   ("ppt", FileType.presentation), ("pptx", FileType.presentation),
   ("odp", FileType.presentation), ("key", FileType.presentation),
   ("jpg", FileType.image), ("jpeg", FileType.image), ("png", FileType.image),
   ("gif", FileType.image), ("bmp", FileType.image), ("webp", FileType.image),
   ("svg", FileType.image), ("ico", FileType.image), ("tiff", FileType.image),
   ("tif", FileType.image), ("heic", FileType.image), ("heif", FileType.image),
   ("raw", FileType.image), ("cr2", FileType.image), ("nef", FileType.image),
   ("mp4", FileType.video), ("avi", FileType.video), ("mov", FileType.video),
   ("wmv", FileType.video), ("mkv", FileType.video), ("flv", FileType.video),
   ("webm", FileType.video), ("m4v", FileType.video), ("mpeg", FileType.video),
   ("mpg", FileType.video), ("3gp", FileType.video),
   ("mp3", FileType.audio), ("wav", FileType.audio), ("flac", FileType.audio),
   ("aac", FileType.audio), ("ogg", FileType.audio), ("wma", FileType.audio),
   ("m4a", FileType.audio), ("opus", FileType.audio), ("aiff", FileType.audio),
   ("zip", FileType.archive), ("rar", FileType.archive), ("7z", FileType.archive),
   ("tar", FileType.archive), ("gz", FileType.archive), ("bz2", FileType.archive),
   ("xz", FileType.archive), ("iso", FileType.archive), ("dmg", FileType.archive),
   ("js", FileType.code), ("ts", FileType.code), ("jsx", FileType.code),
   ("tsx", FileType.code), ("py", FileType.code), ("java", FileType.code),
   ("c", FileType.code), ("cpp", FileType.code), ("h", FileType.code),
   ("hpp", FileType.code), ("cs", FileType.code), ("go", FileType.code),
   ("rs", FileType.code), ("rb", FileType.code), ("php", FileType.code),
   ("swift", FileType.code), ("kt", FileType.code), ("scala", FileType.code),
   ("html", FileType.code), ("css", FileType.code), ("scss", FileType.code),
   ("sass", FileType.code), ("less", FileType.code), ("json", FileType.code),
   ("xml", FileType.code), ("yaml", FileType.code), ("yml", FileType.code),
   ("toml", FileType.code), ("sql", FileType.code), ("sh", FileType.code),
   ("bash", FileType.code), ("ps1", FileType.code), ("r", FileType.code),
   ("lua", FileType.code), ("perl", FileType.code), ("pl", FileType.code)]

/-- Models String.prototype.toLowerCase as a per-character map
    (faithful on the ASCII extensions the classifier compares). -/
def toLowerString (s : String) : String := String.mk (s.toList.map Char.toLower)

/-- Models String.prototype.toUpperCase as a per-character map. -/
def toUpperString (s : String) : String := String.mk (s.toList.map Char.toUpper)

/-- Index of the last occurrence of a dot in a character list
    (models filename.lastIndexOf, with none for the JS result -1). -/
def lastDotIdx : List Char → Option Nat
  | [] => none
  | c :: rest =>
    match lastDotIdx rest with
    | some i => some (i + 1)
    | none => if c = '.' then some 0 else none

/-- getExtension of src/utils/fileTypes.ts: the substring after the last
    dot; a dot at index 0 or no dot at all gives the empty string. -/
def getExtension (filename : String) : String :=
  match lastDotIdx filename.toList with
  | none => ""
  | some 0 => ""
  | some i => String.mk (filename.toList.drop (i + 1))

/-- getFileType of src/utils/fileTypes.ts:
    FILE_TYPE_MAP lookup of the lowercased extension, defaulting to other. -/
def getFileType (filename : String) : FileType :=
  (FILE_TYPE_MAP.lookup (toLowerString (getExtension filename))).getD FileType.other

/-- FileNode of src/types/index.ts.  The display-only optional fields
    isExpanded, isSelected, parentId and mimeType are elided: no function
    under verification reads them.  An absent children array and an empty
    one are interchangeable everywhere the sources touch them, so
    children is a plain list. -/
inductive FileNode : Type where
  | mk (id name path type : String) (size : Nat) (modifiedAt createdAt : Date)
      (extension : Option String) (fileType : Option FileType) (children : List FileNode)

def FileNode.id : FileNode → String
  | FileNode.mk i _ _ _ _ _ _ _ _ _ => i

def FileNode.name : FileNode → String
  | FileNode.mk _ n _ _ _ _ _ _ _ _ => n

def FileNode.path : FileNode → String
  | FileNode.mk _ _ p _ _ _ _ _ _ _ => p

def FileNode.type : FileNode → String
  | FileNode.mk _ _ _ t _ _ _ _ _ _ => t

def FileNode.size : FileNode → Nat
  | FileNode.mk _ _ _ _ s _ _ _ _ _ => s

def FileNode.modifiedAt : FileNode → Date
  | FileNode.mk _ _ _ _ _ m _ _ _ _ => m

def FileNode.createdAt : FileNode → Date
  | FileNode.mk _ _ _ _ _ _ c _ _ _ => c

def FileNode.extension : FileNode → Option String
  | FileNode.mk _ _ _ _ _ _ _ e _ _ => e

def FileNode.fileType : FileNode → Option FileType
  | FileNode.mk _ _ _ _ _ _ _ _ ft _ => ft

def FileNode.children : FileNode → List FileNode
  | FileNode.mk _ _ _ _ _ _ _ _ _ cs => cs

/-- The object spread with a replaced path field, as in
    the movedFile construction of preview.ts. -/
def FileNode.withPath : FileNode → String → FileNode
  | FileNode.mk i n _ t s m c e ft cs, p => FileNode.mk i n p t s m c e ft cs

/-- OrganizationRule of src/types/index.ts. -/
inductive OrganizationRule where
  | byType | byDate | bySize | byExtension | flatten | custom
deriving DecidableEq

/-- The dateFormat option values. -/
inductive DateFormat where
  | year | yearMonth | yearMonthDay
deriving DecidableEq

/-- The sizeThresholds option record (byte counts). -/
structure SizeThresholds where
  small : Nat
  medium : Nat
deriving DecidableEq

/-- The options record of OrganizationConfig; customCategories is a
    Record of category name to extension array, modelled as an
    insertion-ordered association list (Object.entries order). -/
structure RuleOptions where
  dateFormat : Option DateFormat
  sizeThresholds : Option SizeThresholds
  customCategories : Option (List (String × List String))

/-- OrganizationConfig of src/types/index.ts. -/
structure OrganizationConfig where
  rule : OrganizationRule
  options : Option RuleOptions

/-- DEFAULT_SIZE_THRESHOLDS of src/utils/organizer.ts. -/
def DEFAULT_SIZE_THRESHOLDS : SizeThresholds :=
  { small := 1024 * 1024, medium := 100 * 1024 * 1024 }

/-- getDestinationByType of organizer.ts: file.fileType, or the type
    detected from the file name, rendered through FILE_TYPE_NAMES. -/
def getDestinationByType (file : FileNode) : String :=
  FILE_TYPE_NAMES (file.fileType.getD (getFileType file.name))

/-- String(n).padStart(2, zero) on a decimal rendering. -/
def padStart2 (s : String) : String :=
  if s.length ≥ 2 then s else if s.length = 1 then "0" ++ s else "00"

/-- getDestinationByDate of organizer.ts. -/
def getDestinationByDate (file : FileNode) (format : DateFormat) : String :=
  let year := toString file.modifiedAt.year
  let month := padStart2 (toString file.modifiedAt.month)
  let day := padStart2 (toString file.modifiedAt.day)
  match format with
  | DateFormat.year => year
  | DateFormat.yearMonth => year ++ "/" ++ year ++ "-" ++ month
  | DateFormat.yearMonthDay =>
      year ++ "/" ++ year ++ "-" ++ month ++ "/" ++ year ++ "-" ++ month ++ "-" ++ day

/-- getDestinationBySize of organizer.ts. -/
def getDestinationBySize (file : FileNode) (thresholds : SizeThresholds) : String :=
  if file.size < thresholds.small then "Small (< 1 MB)"
  else if file.size < thresholds.medium then "Medium (1-100 MB)"
  else "Large (> 100 MB)"

/-- getDestinationByExtension of organizer.ts. -/
def getDestinationByExtension (file : FileNode) : String :=
  let ext := file.extension.getD ""
  if ext = "" then "No Extension" else toUpperString ext

/-- getDestinationCustom of organizer.ts: null when no category map is
    given; otherwise the first category whose extension list contains the
    lowercased extension, with an Uncategorized fallback. -/
def getDestinationCustom (file : FileNode)
    (customCategories : Option (List (String × List String))) : Option String :=
  match customCategories with
  | none => none
  | some cats =>
    let ext := toLowerString (file.extension.getD "")
    match cats.find? (fun p => p.2.contains ext) with
    | some p => some p.1
    | none => some "Uncategorized"

/-- getDestinationFolder of organizer.ts (none models the TS null). -/
def getDestinationFolder (file : FileNode) (config : OrganizationConfig) : Option String :=
  match config.rule with
  | OrganizationRule.byType => some (getDestinationByType file)
  | OrganizationRule.byDate =>
      some (getDestinationByDate file
        ((config.options.bind (fun o => o.dateFormat)).getD DateFormat.yearMonth))
  | OrganizationRule.bySize =>
      some (getDestinationBySize file
        ((config.options.bind (fun o => o.sizeThresholds)).getD DEFAULT_SIZE_THRESHOLDS))
  | OrganizationRule.byExtension => some (getDestinationByExtension file)
  | OrganizationRule.flatten => some ""
  | OrganizationRule.custom =>
      getDestinationCustom file (config.options.bind (fun o => o.customCategories))

/-- flattenFileTree of organizer.ts: pre-order traversal, each node
    before its children, siblings in order. -/
def flattenFileTree : List FileNode → List FileNode
  | [] => []
  | FileNode.mk i nm p t s m c e ft cs :: rest =>
      FileNode.mk i nm p t s m c e ft cs :: (flattenFileTree cs ++ flattenFileTree rest)

/-- MoveOperation of src/types/index.ts. -/
structure MoveOperation where
  id : String
  sourceFile : FileNode
  sourcePath : String
  destinationPath : String
  destinationFolder : String
  status : String
  error : Option String

/-- OrganizationPlan of src/types/index.ts. -/
structure OrganizationPlan where
  id : String
  name : String
  description : String
  rule : OrganizationRule
  operations : List MoveOperation
  createdAt : Date
  status : String
  affectedFiles : Nat
  newFolders : List String

/-- The body of the generation loop of generateOrganizationPlan
    (organizer.ts lines 37-58) for one file: folders are skipped; a falsy
    destination is skipped, where the JS test (not destinationFolder)
    holds both for null and for the empty string; a file whose path
    already equals the computed destination path is skipped.  A kept file
    is returned with its destinationFolder and destinationPath. -/
def keepFile (config : OrganizationConfig) (basePath : String) (file : FileNode) :
    Option (FileNode × String × String) :=
  if file.type = "folder" then none
  else
    match getDestinationFolder file config with
    | none => none
    | some destinationFolder =>
      if destinationFolder = "" then none
      else
        let destinationPath := basePath ++ "/" ++ destinationFolder ++ "/" ++ file.name
        if file.path = destinationPath then none
        else some (file, destinationFolder, destinationPath)

/-- The ordered list of kept files of a generation run, in discovery
    order of the flattened tree. -/
def planKeptFiles (files : List FileNode) (config : OrganizationConfig)
    (basePath : String) : List (FileNode × String × String) :=
  (flattenFileTree files).filterMap (keepFile config basePath)

/-- The operations.push of the loop: one MoveOperation per kept file,
    with a fresh id drawn from the supply per push, status pending. -/
def buildOps (ids : Nat → String) : Nat → List (FileNode × String × String) → List MoveOperation
  | _, [] => []
  | i, k :: rest =>
    { id := ids i, sourceFile := k.1, sourcePath := k.1.path, destinationPath := k.2.2,
      destinationFolder := k.2.1, status := "pending", error := none } :: buildOps ids (i + 1) rest

/-- The JS Set insertion: append only when absent. -/
def addToSet (l : List String) (s : String) : List String :=
  if s ∈ l then l else l ++ [s]

/-- Array.from of a Set filled left to right: first-occurrence order,
    deduplicated. -/
def dedupFirst (l : List String) : List String := l.foldl addToSet []

/-- The string value of an OrganizationRule (TS string literal union). -/
def ruleName : OrganizationRule → String
  | OrganizationRule.byType => "byType"
  | OrganizationRule.byDate => "byDate"
  | OrganizationRule.bySize => "bySize"
  | OrganizationRule.byExtension => "byExtension"
  | OrganizationRule.flatten => "flatten"
  | OrganizationRule.custom => "custom"

/-- ruleDescriptions of organizer.ts. -/
def ruleDescriptions : OrganizationRule → String
  | OrganizationRule.byType => "Organize files into folders by their type (Documents, Images, etc.)"
  | OrganizationRule.byDate => "Organize files into Year/Month folders based on modification date"
  | OrganizationRule.bySize => "Organize files into Small, Medium, and Large folders based on size"
  | OrganizationRule.byExtension => "Organize files into folders by their file extension"
  | OrganizationRule.flatten => "Move all files to the root folder"
  | OrganizationRule.custom => "Custom organization based on AI suggestions"

/-- generateOrganizationPlan of organizer.ts (lines 25-80).  The id
    supply stands for generateId: the operations draw ids 0, 1, ... in
    push order and the plan id is drawn after them; now stands for the
    new Date() of the plan record. -/
def generateOrganizationPlan (files : List FileNode) (config : OrganizationConfig)
    (basePath : String) (ids : Nat → String) (now : Date) : OrganizationPlan :=
  let kept := planKeptFiles files config basePath
  let operations := buildOps ids 0 kept
  { id := ids kept.length,
    name := "Organize by " ++ ruleName config.rule,
    description := ruleDescriptions config.rule,
    rule := config.rule,
    operations := operations,
    createdAt := now,
    status := "preview",
    affectedFiles := operations.length,
    newFolders := dedupFirst (kept.map (fun k => k.2.1)) }

/-- The per-operation step of calculatePlanStats: a falsy (empty)
    destinationFolder is displayed under Root; the folder counter is a JS
    object, so a known key is updated in place and a new key appended. -/
def bumpCount (m : List (String × Nat)) (k : String) : List (String × Nat) :=
  if m.any (fun p => p.1 == k) then m.map (fun p => if p.1 == k then (p.1, p.2 + 1) else p)
  else m ++ [(k, 1)]

def statsStep (acc : List (String × Nat) × Nat) (op : MoveOperation) :
    List (String × Nat) × Nat :=
  let folder := if op.destinationFolder = "" then "Root" else op.destinationFolder
  (bumpCount acc.1 folder, acc.2 + op.sourceFile.size)

/-- The result record of calculatePlanStats. -/
structure PlanStats where
  totalFiles : Nat
  totalSize : Nat
  folderBreakdown : List (String × Nat)

/-- calculatePlanStats of organizer.ts (lines 324-343). -/
def calculatePlanStats (plan : OrganizationPlan) : PlanStats :=
  let folded := plan.operations.foldl statsStep (([] : List (String × Nat)), 0)
  { totalFiles := plan.operations.length, totalSize := folded.2, folderBreakdown := folded.1 }

/-- String.prototype.split with a one-character separator (the empty
    string splits to one empty group, as in JS). -/
def splitChar (sep : Char) : List Char → List (List Char)
  | [] => [[]]
  | c :: rest =>
    let r := splitChar sep rest
    if c = sep then [] :: r
    else
      match r with
      | [] => [[c]]
      | g :: gs => (c :: g) :: gs

def jsSplit (sep : Char) (s : String) : List String :=
  (splitChar sep s.toList).map String.mk

/-- Map.get over the folderPath-keyed folder map, by index into the
    newFolders array. -/
def lookupAssocIdx : List (String × Nat) → String → Option Nat
  | [], _ => none
  | p :: rest, k => if p.1 = k then some p.2 else lookupAssocIdx rest k

/-- Map.set: replace the value of an existing key, else append. -/
def setAssocIdx : List (String × Nat) → String → Nat → List (String × Nat)
  | [], k, v => [(k, v)]
  | p :: rest, k, v => if p.1 = k then (k, v) :: rest else p :: setAssocIdx rest k v

def folderMapAux : List (String × Nat) → Nat → List String → List (String × Nat)
  | m, _, [] => m
  | m, i, f :: rest => folderMapAux (setAssocIdx m f i) (i + 1) rest

/-- The folderMap of simulateFileReorganization: folderPath to the index
    of the folder node built for it (a later duplicate key overwrites,
    as Map.set does). -/
def folderMapOf (newFolders : List String) : List (String × Nat) :=
  folderMapAux [] 0 newFolders

def mapWithIndex {α β : Type} (g : Nat → α → β) : Nat → List α → List β
  | _, [] => []
  | i, a :: rest => g i a :: mapWithIndex g (i + 1) rest

/-- simulateFileReorganization of src/stores/preview.ts (lines 128-165):
    one folder node per newFolders entry (name = last path segment with
    the JS pop-or-whole-string fallback, path = slash + folderPath), and
    each operation pushes a copy of its sourceFile, at destinationPath,
    into the folder found in the map, accumulating the folder size. -/
def simulateFileReorganization (plan : OrganizationPlan) (now : Date) : List FileNode :=
  let fm := folderMapOf plan.newFolders
  mapWithIndex
    (fun i folderPath =>
      let kids := plan.operations.filterMap (fun op =>
        match lookupAssocIdx fm op.destinationFolder with
        | some j =>
            if j = i then some (FileNode.withPath op.sourceFile op.destinationPath) else none
        | none => none)
      let popped := (jsSplit '/' folderPath).getLastD ""
      FileNode.mk ("folder-" ++ folderPath)
        (if popped = "" then folderPath else popped)
        ("/" ++ folderPath) "folder"
        (kids.foldl (fun acc k => acc + k.size) 0)
        now now none none kids)
    0 plan.newFolders

/-- HistoryEntry of src/types/index.ts; the fileData partial snapshot is
    inlined as the three fields addBatch stores (name, size, fileType). -/
structure HistoryEntry where
  id : String
  batchId : String
  operationType : String
  sourcePath : String
  destinationPath : String
  fileName : String
  fileSize : Nat
  fileTypeData : Option FileType
  timestamp : Date
  isUndone : Bool
deriving DecidableEq

/-- HistoryBatch of src/types/index.ts. -/
structure HistoryBatch where
  id : String
  name : String
  description : String
  entries : List HistoryEntry
  timestamp : Date
  isUndone : Bool
deriving DecidableEq

def markEntryUndone (e : HistoryEntry) : HistoryEntry := { e with isUndone := true }

/-- The update undoBatch applies to the matching batch: the batch and
    every entry get isUndone = true. -/
def markBatchUndone (b : HistoryBatch) : HistoryBatch :=
  { b with isUndone := true, entries := b.entries.map markEntryUndone }

/-- undoBatch of src/stores/history.ts (lines 110-146): every batch whose
    id matches is marked undone together with its entries; the function
    returns true.  Persistence and the delegated file refresh are
    external effects; with the persistence collaborator modelled as
    infallible the catch branch (the only source of false) is
    unreachable. -/
def undoBatch (history : List HistoryBatch) (batchId : String) :
    List HistoryBatch × Bool :=
  (history.map (fun batch => if batch.id = batchId then markBatchUndone batch else batch),
   true)

/-- The lastBatch memo of history.ts: the first batch in the
    most-recent-first ledger that is not undone. -/
def lastBatch (history : List HistoryBatch) : Option HistoryBatch :=
  history.find? (fun batch => !batch.isUndone)

/-- undoLast of history.ts (lines 100-105). -/
def undoLast (history : List HistoryBatch) : List HistoryBatch × Bool :=
  match lastBatch history with
  | none => (history, false)
  | some batch => undoBatch history batch.id

/-- addBatch of history.ts (lines 52-95): entries are built 1:1 from the
    operations (ids 0, 1, ... from the supply, then the batch id), stamped
    with the batch id, and the batch is prepended to the ledger. -/
def mkEntries (ids : Nat → String) (now : Date) :
    Nat → List MoveOperation → List HistoryEntry
  | _, [] => []
  | i, op :: rest =>
    { id := ids i, batchId := "", operationType := "move", sourcePath := op.sourcePath,
      destinationPath := op.destinationPath, fileName := op.sourceFile.name,
      fileSize := op.sourceFile.size, fileTypeData := op.sourceFile.fileType,
      timestamp := now, isUndone := false } :: mkEntries ids now (i + 1) rest

def addBatch (history : List HistoryBatch) (name description : String)
    (operations : List MoveOperation) (ids : Nat → String) (now : Date) :
    HistoryBatch × List HistoryBatch :=
  let entries := mkEntries ids now 0 operations
  let batchId := ids operations.length
  let batch : HistoryBatch :=
    { id := batchId, name := name, description := description,
      entries := entries.map (fun e => { e with batchId := batchId }),
      timestamp := now, isUndone := false }
  (batch, batch :: history)

/- Concrete sample data used by witnesses and counterexamples. -/

def d2024 : Date := { year := 2024, month := 3, day := 15 }

def demoIds : Nat → String := fun n => toString n

def cfgByType : OrganizationConfig := { rule := OrganizationRule.byType, options := none }

def cfgFlatten : OrganizationConfig := { rule := OrganizationRule.flatten, options := none }

def cfgCustomNoMap : OrganizationConfig := { rule := OrganizationRule.custom, options := none }

def wPdf : FileNode :=
  FileNode.mk "f1" "report.pdf" "/report.pdf" "file" 100 d2024 d2024 (some "pdf")
    (some FileType.pdf) []

def nestedTxt : FileNode :=
  FileNode.mk "f3" "notes.txt" "/docs/notes.txt" "file" 20 d2024 d2024 (some "txt") none []

def szFile (n : Nat) : FileNode :=
  FileNode.mk "f4" "blob.bin" "/blob.bin" "file" n d2024 d2024 (some "bin") none []

def cEntryUndone : HistoryEntry :=
  { id := "e1", batchId := "b1", operationType := "move", sourcePath := "/a.txt",
    destinationPath := "/Documents/a.txt", fileName := "a.txt", fileSize := 10,
    fileTypeData := some FileType.document, timestamp := d2024, isUndone := true }

def cBatchUndone : HistoryBatch :=
  { id := "b1", name := "n1", description := "d1", entries := [cEntryUndone],
    timestamp := d2024, isUndone := true }

def cEntryFresh (eid bid : String) : HistoryEntry :=
  { id := eid, batchId := bid, operationType := "move", sourcePath := "/a.txt",
    destinationPath := "/Documents/a.txt", fileName := "a.txt", fileSize := 10,
    fileTypeData := some FileType.document, timestamp := d2024, isUndone := false }

def cBatch1 : HistoryBatch :=
  { id := "h1", name := "older", description := "first applied", entries := [cEntryFresh "e1" "h1"],
    timestamp := d2024, isUndone := false }

def cBatch2 : HistoryBatch :=
  { id := "h2", name := "newer", description := "second applied", entries := [cEntryFresh "e2" "h2"],
    timestamp := d2024, isUndone := false }

def catsNoMatch : List (String × List String) := [("Images", ["jpg"])]

/- Basic lemmas about the embedding. -/

theorem flattenFileTree_nil : flattenFileTree [] = [] := by
  simp [flattenFileTree]

theorem flattenFileTree_cons (n : FileNode) (rest : List FileNode) :
    flattenFileTree (n :: rest) = n :: (flattenFileTree n.children ++ flattenFileTree rest) := by
  cases n
  simp [flattenFileTree, FileNode.children]

theorem mem_flattenFileTree {x : FileNode} {ns : List FileNode} :
    x ∈ flattenFileTree ns ↔ ∃ n ∈ ns, x = n ∨ x ∈ flattenFileTree n.children := by
  induction ns with
  | nil => simp [flattenFileTree_nil]
  | cons n rest ih =>
    rw [flattenFileTree_cons]
    simp only [List.mem_cons, List.mem_append, ih]
    constructor
    · rintro (rfl | hc | ⟨m, hm, hx⟩)
      · exact ⟨_, Or.inl rfl, Or.inl rfl⟩
      · exact ⟨_, Or.inl rfl, Or.inr hc⟩
      · exact ⟨m, Or.inr hm, hx⟩
    · rintro ⟨m, (rfl | hm), hx⟩
      · rcases hx with rfl | hc
        · exact Or.inl rfl
        · exact Or.inr (Or.inl hc)
      · exact Or.inr (Or.inr ⟨m, hm, hx⟩)

theorem FileNode.withPath_path (f : FileNode) (p : String) : (f.withPath p).path = p := by
  cases f; rfl

theorem FileNode.withPath_name (f : FileNode) (p : String) : (f.withPath p).name = f.name := by
  cases f; rfl

theorem FileNode.withPath_type (f : FileNode) (p : String) : (f.withPath p).type = f.type := by
  cases f; rfl

theorem FileNode.withPath_children (f : FileNode) (p : String) :
    (f.withPath p).children = f.children := by
  cases f; rfl

theorem getDestinationByType_withPath (f : FileNode) (p : String) :
    getDestinationByType (f.withPath p) = getDestinationByType f := by
  cases f; rfl

theorem getDestinationByDate_withPath (f : FileNode) (p : String) (fmt : DateFormat) :
    getDestinationByDate (f.withPath p) fmt = getDestinationByDate f fmt := by
  cases f; cases fmt <;> rfl

theorem getDestinationBySize_withPath (f : FileNode) (p : String) (th : SizeThresholds) :
    getDestinationBySize (f.withPath p) th = getDestinationBySize f th := by
  cases f; rfl

theorem getDestinationByExtension_withPath (f : FileNode) (p : String) :
    getDestinationByExtension (f.withPath p) = getDestinationByExtension f := by
  cases f; rfl

theorem getDestinationCustom_withPath (f : FileNode) (p : String)
    (cc : Option (List (String × List String))) :
    getDestinationCustom (f.withPath p) cc = getDestinationCustom f cc := by
  cases cc <;> (cases f; rfl)

theorem getDestinationFolder_withPath (f : FileNode) (p : String) (config : OrganizationConfig) :
    getDestinationFolder (f.withPath p) config = getDestinationFolder f config := by
  rcases config with ⟨rule, opts⟩
  cases rule <;>
    simp [getDestinationFolder, getDestinationByType_withPath, getDestinationByDate_withPath,
      getDestinationBySize_withPath, getDestinationByExtension_withPath,
      getDestinationCustom_withPath]

theorem generate_operations_eq (files : List FileNode) (config : OrganizationConfig)
    (basePath : String) (ids : Nat → String) (now : Date) :
    (generateOrganizationPlan files config basePath ids now).operations
      = buildOps ids 0 (planKeptFiles files config basePath) := rfl

theorem generate_newFolders_eq (files : List FileNode) (config : OrganizationConfig)
    (basePath : String) (ids : Nat → String) (now : Date) :
    (generateOrganizationPlan files config basePath ids now).newFolders
      = dedupFirst ((planKeptFiles files config basePath).map (fun k => k.2.1)) := rfl

theorem buildOps_length (ids : Nat → String) : ∀ (i : Nat) (ks : List (FileNode × String × String)),
    (buildOps ids i ks).length = ks.length := by
  intro i ks
  induction ks generalizing i with
  | nil => rfl
  | cons k rest ih => simp [buildOps, ih]

theorem buildOps_proj (ids : Nat → String) : ∀ (i : Nat) (ks : List (FileNode × String × String)),
    (buildOps ids i ks).map (fun op => (op.sourcePath, op.destinationFolder, op.destinationPath))
      = ks.map (fun k => (k.1.path, k.2.1, k.2.2)) := by
  intro i ks
  induction ks generalizing i with
  | nil => rfl
  | cons k rest ih => simp [buildOps, ih]

theorem buildOps_destFolders (ids : Nat → String) :
    ∀ (i : Nat) (ks : List (FileNode × String × String)),
    (buildOps ids i ks).map (fun op => op.destinationFolder) = ks.map (fun k => k.2.1) := by
  intro i ks
  induction ks generalizing i with
  | nil => rfl
  | cons k rest ih => simp [buildOps, ih]

theorem mem_buildOps {ids : Nat → String} {i : Nat} {ks : List (FileNode × String × String)}
    {op : MoveOperation} (h : op ∈ buildOps ids i ks) :
    ∃ k ∈ ks, op.sourceFile = k.1 ∧ op.sourcePath = k.1.path ∧ op.destinationFolder = k.2.1
      ∧ op.destinationPath = k.2.2 ∧ op.status = "pending" := by
  induction ks generalizing i with
  | nil => cases h
  | cons k rest ih =>
    simp only [buildOps, List.mem_cons] at h
    rcases h with rfl | h
    · exact ⟨k, List.mem_cons_self k rest, rfl, rfl, rfl, rfl, rfl⟩
    · obtain ⟨k2, hk2, hrest⟩ := ih h
      exact ⟨k2, List.mem_cons_of_mem k hk2, hrest⟩

theorem mem_foldl_addToSet : ∀ (l acc : List String) (x : String),
    x ∈ l.foldl addToSet acc ↔ x ∈ acc ∨ x ∈ l := by
  intro l
  induction l with
  | nil => intro acc x; simp
  | cons a l ih =>
    intro acc x
    rw [List.foldl_cons, ih]
    unfold addToSet
    by_cases h : a ∈ acc
    · rw [if_pos h]
      constructor
      · rintro (hx | hx)
        · exact Or.inl hx
        · exact Or.inr (List.mem_cons_of_mem a hx)
      · rintro (hx | hx)
        · exact Or.inl hx
        · rcases List.mem_cons.mp hx with rfl | hx2
          · exact Or.inl h
          · exact Or.inr hx2
    · rw [if_neg h]
      simp only [List.mem_append, List.mem_singleton, List.mem_cons]
      tauto

theorem nodup_foldl_addToSet : ∀ (l acc : List String), acc.Nodup → (l.foldl addToSet acc).Nodup := by
  intro l
  induction l with
  | nil => intro acc h; simpa using h
  | cons a l ih =>
    intro acc h
    rw [List.foldl_cons]
    apply ih
    unfold addToSet
    by_cases ha : a ∈ acc
    · rwa [if_pos ha]
    · rw [if_neg ha]
      refine List.Nodup.append h (List.nodup_singleton a) ?_
      intro x hx hxa
      rw [List.mem_singleton] at hxa
      subst hxa
      exact ha hx

theorem mem_dedupFirst {x : String} {l : List String} : x ∈ dedupFirst l ↔ x ∈ l := by
  unfold dedupFirst
  rw [mem_foldl_addToSet]
  simp

theorem nodup_dedupFirst (l : List String) : (dedupFirst l).Nodup :=
  nodup_foldl_addToSet l [] List.nodup_nil

theorem statsFold_totalSize (ops : List MoveOperation) :
    ∀ (m : List (String × Nat)) (s : Nat),
    (ops.foldl statsStep (m, s)).2 = s + (ops.map (fun op => op.sourceFile.size)).sum := by
  induction ops with
  | nil => intro m s; simp
  | cons op rest ih =>
    intro m s
    rw [List.foldl_cons]
    have hstep : statsStep (m, s) op
        = (bumpCount m (if op.destinationFolder = "" then "Root" else op.destinationFolder),
           s + op.sourceFile.size) := rfl
    rw [hstep, ih]
    simp [List.sum_cons]
    omega

theorem calculatePlanStats_totalSize (plan : OrganizationPlan) :
    (calculatePlanStats plan).totalSize
      = (plan.operations.map (fun op => op.sourceFile.size)).sum := by
  show (plan.operations.foldl statsStep ([], 0)).2 = _
  rw [statsFold_totalSize]
  exact Nat.zero_add _

/- Claim theorems. -/

/-- Claim C5: with thresholds small = 1048576 and medium = 104857600, size
    bucketing is half-open on the lower bound: a file of exactly 1048576
    bytes goes to the Medium bucket, one of 1048575 bytes to Small, and
    one of exactly 104857600 bytes to Large. -/
theorem size_bucket_boundaries (f : FileNode) :
    (f.size = 1048576 →
      getDestinationBySize f { small := 1048576, medium := 104857600 } = "Medium (1-100 MB)")
    ∧ (f.size = 1048575 →
      getDestinationBySize f { small := 1048576, medium := 104857600 } = "Small (< 1 MB)")
    ∧ (f.size = 104857600 →
      getDestinationBySize f { small := 1048576, medium := 104857600 } = "Large (> 100 MB)") := by
  refine ⟨fun h => ?_, fun h => ?_, fun h => ?_⟩ <;> simp [getDestinationBySize, h]

/-- Witness for C5 at a concrete file of exactly 1048576 bytes. -/
theorem size_bucket_boundaries_witness :
    getDestinationBySize (szFile 1048576) { small := 1048576, medium := 104857600 }
      = "Medium (1-100 MB)" :=
  (size_bucket_boundaries (szFile 1048576)).1 rfl

/-- Claim C7: for every generated plan, affectedFiles equals the number of
    operations, and the sum of the operations sourceFile sizes equals the
    totalSize of calculatePlanStats. -/
theorem plan_conservation (files : List FileNode) (config : OrganizationConfig)
    (basePath : String) (ids : Nat → String) (now : Date) :
    (generateOrganizationPlan files config basePath ids now).affectedFiles
      = (generateOrganizationPlan files config basePath ids now).operations.length
    ∧ ((generateOrganizationPlan files config basePath ids now).operations.map
        (fun op => op.sourceFile.size)).sum
      = (calculatePlanStats (generateOrganizationPlan files config basePath ids now)).totalSize := by
  exact ⟨rfl, (calculatePlanStats_totalSize _).symm⟩

/-- Claim C9: two generation runs on the same snapshot, rule and root,
    with different id supplies and clocks, produce the same number of
    operations, in the same order, with the same sourcePath,
    destinationFolder and destinationPath at every position. -/
theorem plan_deterministic (files : List FileNode) (config : OrganizationConfig)
    (basePath : String) (ids1 ids2 : Nat → String) (now1 now2 : Date) :
    (generateOrganizationPlan files config basePath ids1 now1).operations.length
      = (generateOrganizationPlan files config basePath ids2 now2).operations.length
    ∧ (generateOrganizationPlan files config basePath ids1 now1).operations.map
        (fun op => (op.sourcePath, op.destinationFolder, op.destinationPath))
      = (generateOrganizationPlan files config basePath ids2 now2).operations.map
        (fun op => (op.sourcePath, op.destinationFolder, op.destinationPath)) := by
  rw [generate_operations_eq files config basePath ids1 now1,
    generate_operations_eq files config basePath ids2 now2]
  constructor
  · rw [buildOps_length, buildOps_length]
  · rw [buildOps_proj, buildOps_proj]

/-- Claim C10: in every generated plan each operation is pending with
    sourcePath equal to its sourceFile path, and newFolders is exactly the
    first-occurrence-ordered deduplication of the operations
    destinationFolder values (same membership, no duplicates). -/
theorem plan_operations_wellformed (files : List FileNode) (config : OrganizationConfig)
    (basePath : String) (ids : Nat → String) (now : Date) :
    (∀ op ∈ (generateOrganizationPlan files config basePath ids now).operations,
        op.status = "pending" ∧ op.sourcePath = op.sourceFile.path)
    ∧ (generateOrganizationPlan files config basePath ids now).newFolders
        = dedupFirst ((generateOrganizationPlan files config basePath ids now).operations.map
            (fun op => op.destinationFolder))
    ∧ (generateOrganizationPlan files config basePath ids now).newFolders.Nodup
    ∧ ∀ d, d ∈ (generateOrganizationPlan files config basePath ids now).newFolders ↔
        d ∈ (generateOrganizationPlan files config basePath ids now).operations.map
            (fun op => op.destinationFolder) := by
  refine ⟨?_, ?_, ?_, ?_⟩
  · intro op hop
    rw [generate_operations_eq] at hop
    obtain ⟨k, hk, hsf, hsp, _, _, hst⟩ := mem_buildOps hop
    exact ⟨hst, by rw [hsp, hsf]⟩
  · rw [generate_operations_eq, generate_newFolders_eq, buildOps_destFolders]
  · rw [generate_newFolders_eq]
    exact nodup_dedupFirst _
  · intro d
    rw [generate_operations_eq, generate_newFolders_eq, buildOps_destFolders, mem_dedupFirst]

/-- Witness for C10: on a one-pdf snapshot organized byType, PDFs is a
    newFolders entry because it is an operation destination. -/
theorem plan_operations_wellformed_witness :
    "PDFs" ∈ (generateOrganizationPlan [wPdf] cfgByType "" demoIds d2024).newFolders := by
  apply ((plan_operations_wellformed [wPdf] cfgByType "" demoIds d2024).2.2.2 "PDFs").mpr
  have h1 : flattenFileTree [wPdf] = [wPdf] := by simp [flattenFileTree, wPdf]
  have h2 : planKeptFiles [wPdf] cfgByType "" = [(wPdf, "PDFs", "/PDFs/report.pdf")] := by
    unfold planKeptFiles
    rw [h1]
    rfl
  rw [generate_operations_eq, h2]
  decide

theorem toList_String_mk (l : List Char) : (String.mk l).toList = l := rfl

theorem lastDotIdx_eq_none {cs : List Char} (h : '.' ∉ cs) : lastDotIdx cs = none := by
  induction cs with
  | nil => rfl
  | cons c rest ih =>
    simp only [List.mem_cons, not_or] at h
    have hc : c ≠ '.' := fun hcc => h.1 hcc.symm
    simp [lastDotIdx, ih h.2, hc]

theorem lastDotIdx_append (pre post : List Char) (h : '.' ∉ post) :
    lastDotIdx (pre ++ '.' :: post) = some pre.length := by
  induction pre with
  | nil => simp [lastDotIdx, lastDotIdx_eq_none h]
  | cons c pre ih => simp [lastDotIdx, ih]

/-- Claim C8: classification is total with an other default; the
    extension is the substring after the last dot with a dot at index 0
    not counting; dotfiles with no further dot classify as other; and
    classification depends only on the lowercased extension, hence is
    case-insensitive. -/
theorem getFileType_total_spec :
    (∀ f : String, FILE_TYPE_MAP.lookup (toLowerString (getExtension f)) = none →
        getFileType f = FileType.other)
    ∧ (∀ f : String, getExtension f = "" → getFileType f = FileType.other)
    ∧ (∀ pre post : List Char, '.' ∉ post →
        getExtension (String.mk (pre ++ '.' :: post))
          = if pre = [] then "" else String.mk post)
    ∧ (∀ cs : List Char, '.' ∉ cs →
        getFileType (String.mk ('.' :: cs)) = FileType.other)
    ∧ (∀ f g : String, toLowerString (getExtension f) = toLowerString (getExtension g) →
        getFileType f = getFileType g) := by
  have h1 : ∀ f : String, FILE_TYPE_MAP.lookup (toLowerString (getExtension f)) = none →
      getFileType f = FileType.other := by
    intro f h
    unfold getFileType
    rw [h]
    rfl
  have h2 : ∀ f : String, getExtension f = "" → getFileType f = FileType.other := by
    intro f h
    unfold getFileType
    rw [h]
    rfl
  have h3 : ∀ pre post : List Char, '.' ∉ post →
      getExtension (String.mk (pre ++ '.' :: post)) = if pre = [] then "" else String.mk post := by
    intro pre post h
    unfold getExtension
    rw [toList_String_mk, lastDotIdx_append pre post h]
    cases pre with
    | nil => rfl
    | cons c pre2 =>
      have hred : (match some ((c :: pre2).length) with
          | none => ""
          | some 0 => ""
          | some i => String.mk (((c :: pre2) ++ '.' :: post).drop (i + 1)))
          = String.mk (((c :: pre2) ++ '.' :: post).drop (pre2.length + 2)) := rfl
      rw [hred]
      have hsplit : (c :: pre2) ++ '.' :: post = ((c :: pre2) ++ ['.']) ++ post := by simp
      rw [hsplit, List.drop_left' (by simp)]
      simp
  have h4 : ∀ cs : List Char, '.' ∉ cs →
      getFileType (String.mk ('.' :: cs)) = FileType.other := by
    intro cs h
    apply h2
    have := h3 [] cs h
    simpa using this
  have h5 : ∀ f g : String, toLowerString (getExtension f) = toLowerString (getExtension g) →
      getFileType f = getFileType g := by
    intro f g h
    unfold getFileType
    rw [h]
  exact ⟨h1, h2, h3, h4, h5⟩

/-- Witness for C8 at concrete file names. -/
theorem getFileType_total_spec_witness :
    getExtension "r.txt" = "txt"
    ∧ getFileType ".bashrc" = FileType.other
    ∧ getFileType "A.JPG" = getFileType "a.jpg" := by
  refine ⟨?_, ?_, ?_⟩
  · have h := getFileType_total_spec.2.2.1 ['r'] ['t', 'x', 't'] (by decide)
    have hs : "r.txt" = String.mk (['r'] ++ '.' :: ['t', 'x', 't']) := by decide
    rw [hs, h]
    decide
  · have h := getFileType_total_spec.2.2.2.1 ['b', 'a', 's', 'h', 'r', 'c'] (by decide)
    have hs : ".bashrc" = String.mk ('.' :: ['b', 'a', 's', 'h', 'r', 'c']) := by decide
    rw [hs]
    exact h
  · exact getFileType_total_spec.2.2.2.2 "A.JPG" "a.jpg" (by decide)

/-- Claim C2 counterexample: with the custom rule and no category map at
    all, the resolver yields null (none) and the file is silently
    excluded from the plan, contradicting the claimed Uncategorized
    default. -/
theorem custom_no_map_counterexample :
    getDestinationCustom wPdf none = none
    ∧ (generateOrganizationPlan [wPdf] cfgCustomNoMap "" demoIds d2024).operations = [] := by
  constructor
  · rfl
  · have h1 : flattenFileTree [wPdf] = [wPdf] := by simp [flattenFileTree, wPdf]
    have h2 : planKeptFiles [wPdf] cfgCustomNoMap "" = [] := by
      unfold planKeptFiles
      rw [h1]
      rfl
    rw [generate_operations_eq, h2]
    rfl

/-- Claim C2 (amended): when a custom category map is supplied, resolution
    never yields null: the destination is the first category whose
    extension list contains the lowercased extension, and Uncategorized
    when no category matches.  When no map is supplied at all the
    resolver yields null and the file is dropped from the plan. -/
theorem custom_with_map_never_null (file : FileNode) (cats : List (String × List String)) :
    getDestinationCustom file (some cats) ≠ none
    ∧ ((∀ p ∈ cats, toLowerString (file.extension.getD "") ∉ p.2) →
        getDestinationCustom file (some cats) = some "Uncategorized")
    ∧ (∀ p ∈ cats, toLowerString (file.extension.getD "") ∈ p.2 →
        ∃ q ∈ cats, toLowerString (file.extension.getD "") ∈ q.2 ∧
          getDestinationCustom file (some cats) = some q.1) := by
  have hunfold : getDestinationCustom file (some cats)
      = match cats.find? (fun p => p.2.contains (toLowerString (file.extension.getD ""))) with
        | some p => some p.1
        | none => some "Uncategorized" := rfl
  cases hfind : cats.find? (fun p => p.2.contains (toLowerString (file.extension.getD ""))) with
  | none =>
    have hno := List.find?_eq_none.mp hfind
    refine ⟨?_, fun _ => ?_, ?_⟩
    · rw [hunfold, hfind]
      simp
    · rw [hunfold, hfind]
    · intro p hp hm
      exact absurd (List.elem_iff.mpr hm) (hno p hp)
  | some q =>
    have hq := List.find?_some hfind
    have hqm : q ∈ cats := List.mem_of_find?_eq_some hfind
    have hqmem : toLowerString (file.extension.getD "") ∈ q.2 := List.elem_iff.mp hq
    refine ⟨?_, ?_, ?_⟩
    · rw [hunfold, hfind]
      simp
    · intro hall
      exact absurd hqmem (hall q hqm)
    · intro p hp hm
      refine ⟨q, hqm, hqmem, ?_⟩
      rw [hunfold, hfind]

/-- Witness for C2 (amended): a pdf file against a map without a matching
    category resolves to Uncategorized, not null. -/
theorem custom_with_map_never_null_witness :
    getDestinationCustom wPdf (some catsNoMatch) = some "Uncategorized" := by
  apply (custom_with_map_never_null wPdf catsNoMatch).2.1
  intro p hp
  have hp2 : p ∈ [("Images", ["jpg"])] := hp
  rw [List.mem_singleton] at hp2
  subst hp2
  decide

/-- Claim C3: the flatten resolver does return the empty-string
    destination, but the generation loop tests the destination for JS
    truthiness, and the empty string is falsy, so every file is skipped
    and a flatten plan has no operations at all — contradicting the flatten
    rule description in the same function, which promises to move all
    files to the root folder. -/
theorem flatten_rule_skips_every_file :
    getDestinationFolder nestedTxt cfgFlatten = some ""
    ∧ keepFile cfgFlatten "" nestedTxt = none
    ∧ (generateOrganizationPlan [nestedTxt] cfgFlatten "" demoIds d2024).operations = [] := by
  refine ⟨rfl, rfl, ?_⟩
  have h1 : flattenFileTree [nestedTxt] = [nestedTxt] := by simp [flattenFileTree, nestedTxt]
  have h2 : planKeptFiles [nestedTxt] cfgFlatten "" = [] := by
    unfold planKeptFiles
    rw [h1]
    rfl
  rw [generate_operations_eq, h2]
  rfl

theorem markEntryUndone_eq_self (e : HistoryEntry) (he : e.isUndone = true) :
    markEntryUndone e = e := by
  cases e
  simp_all [markEntryUndone]

theorem markBatchUndone_eq_self (b : HistoryBatch) (hb : b.isUndone = true)
    (he : ∀ e ∈ b.entries, e.isUndone = true) : markBatchUndone b = b := by
  cases b with
  | mk bid bname bdesc bentries bts bundone =>
    unfold markBatchUndone
    have hmap : bentries.map markEntryUndone = bentries := by
      have : ∀ e ∈ bentries, markEntryUndone e = e := fun e hee =>
        markEntryUndone_eq_self e (he e hee)
      calc bentries.map markEntryUndone = bentries.map id :=
            List.map_congr_left (by simpa using this)
        _ = bentries := List.map_id bentries
    simp only [HistoryBatch.isUndone] at hb
    simp [hmap, hb]

/-- Claim C1 counterexample: undoBatch on an already-undone batch returns
    true, not the claimed false. -/
theorem undoBatch_already_undone_counterexample :
    cBatchUndone.isUndone = true ∧ (undoBatch [cBatchUndone] "b1").2 = true := ⟨rfl, rfl⟩

/-- Claim C1 (amended): undoBatch marks every batch with the given id,
    together with all its entries, isUndone = true, leaves other batches
    in the ledger, and returns true; on a ledger where every batch with
    that id is already fully undone it again returns true and leaves the
    ledger unchanged (the claimed false return does not occur). -/
theorem undoBatch_amended (h : List HistoryBatch) (bid : String) :
    ((undoBatch h bid).2 = true
      ∧ ∀ b ∈ (undoBatch h bid).1,
          (b.id = bid → b.isUndone = true ∧ ∀ e ∈ b.entries, e.isUndone = true)
          ∧ (b.id ≠ bid → b ∈ h))
    ∧ ((∀ b ∈ h, b.id = bid → b.isUndone = true ∧ ∀ e ∈ b.entries, e.isUndone = true) →
        (undoBatch h bid).1 = h) := by
  constructor
  · refine ⟨rfl, ?_⟩
    intro b hb
    have hb2 : b ∈ h.map (fun batch => if batch.id = bid then markBatchUndone batch else batch) :=
      hb
    obtain ⟨x, hx, hbx⟩ := List.mem_map.mp hb2
    by_cases hid : x.id = bid
    · rw [if_pos hid] at hbx
      subst hbx
      constructor
      · intro _
        refine ⟨rfl, ?_⟩
        intro e he
        have he2 : e ∈ x.entries.map markEntryUndone := he
        obtain ⟨e2, _, he3⟩ := List.mem_map.mp he2
        rw [← he3]
        rfl
      · intro hneq
        exact absurd hid hneq
    · rw [if_neg hid] at hbx
      subst hbx
      exact ⟨fun hc => absurd hc hid, fun _ => hx⟩
  · intro hall
    show h.map _ = h
    have hcong : ∀ x ∈ h, (if x.id = bid then markBatchUndone x else x) = x := by
      intro x hx
      by_cases hid : x.id = bid
      · rw [if_pos hid]
        obtain ⟨hu, he⟩ := hall x hx hid
        exact markBatchUndone_eq_self x hu he
      · rw [if_neg hid]
    calc h.map (fun x => if x.id = bid then markBatchUndone x else x)
        = h.map id := List.map_congr_left (by simpa using hcong)
      _ = h := List.map_id h

/-- Witness for C1 (amended) at a one-batch, already-undone ledger. -/
theorem undoBatch_amended_witness :
    (undoBatch [cBatchUndone] "b1").2 = true
    ∧ (undoBatch [cBatchUndone] "b1").1 = [cBatchUndone] := by
  refine ⟨(undoBatch_amended [cBatchUndone] "b1").1.1, ?_⟩
  apply (undoBatch_amended [cBatchUndone] "b1").2
  intro b hb _
  have hb2 : b ∈ [cBatchUndone] := hb
  rw [List.mem_singleton] at hb2
  subst hb2
  refine ⟨rfl, ?_⟩
  intro e he
  have he2 : e ∈ [cEntryUndone] := he
  rw [List.mem_singleton] at he2
  subst he2
  rfl

/-- Claim C6: undoLast returns false and leaves the ledger unchanged when
    every batch is undone (in particular on an empty ledger); otherwise it
    marks exactly the first not-undone batch of the most-recent-first
    ledger; so with batches B1 (older) then B2 (newer) the first undoLast
    undoes B2 and the second undoes B1. -/
theorem undoLast_spec :
    (∀ h : List HistoryBatch, (∀ b ∈ h, b.isUndone = true) → undoLast h = (h, false))
    ∧ (∀ (h : List HistoryBatch) (b : HistoryBatch), lastBatch h = some b →
        undoLast h
          = (h.map (fun x => if x.id = b.id then markBatchUndone x else x), true))
    ∧ (∀ B1 B2 : HistoryBatch, B1.isUndone = false → B2.isUndone = false → B1.id ≠ B2.id →
        undoLast [B2, B1] = ([markBatchUndone B2, B1], true)
        ∧ undoLast [markBatchUndone B2, B1]
            = ([markBatchUndone B2, markBatchUndone B1], true)) := by
  refine ⟨?_, ?_, ?_⟩
  · intro h hall
    have hn : lastBatch h = none := by
      unfold lastBatch
      rw [List.find?_eq_none]
      intro x hx
      simp [hall x hx]
    unfold undoLast
    rw [hn]
  · intro h b hb
    unfold undoLast
    rw [hb]
    rfl
  · intro B1 B2 h1 h2 hne
    have hfind : lastBatch [B2, B1] = some B2 := by
      unfold lastBatch
      rw [List.find?_cons_of_pos]
      simp [h2]
    constructor
    · have hu : undoLast [B2, B1] = undoBatch [B2, B1] B2.id := by
        unfold undoLast
        rw [hfind]
      rw [hu]
      unfold undoBatch
      rw [List.map_cons, List.map_cons, List.map_nil, if_pos rfl, if_neg hne]
    · have hmark2 : (markBatchUndone B2).isUndone = true := rfl
      have hmarkid : (markBatchUndone B2).id = B2.id := rfl
      have hfind2 : lastBatch [markBatchUndone B2, B1] = some B1 := by
        unfold lastBatch
        rw [List.find?_cons_of_neg, List.find?_cons_of_pos]
        · simp [h1]
        · simp [hmark2]
      have hu2 : undoLast [markBatchUndone B2, B1] = undoBatch [markBatchUndone B2, B1] B1.id := by
        unfold undoLast
        rw [hfind2]
      rw [hu2]
      unfold undoBatch
      rw [List.map_cons, List.map_cons, List.map_nil, if_pos rfl,
        if_neg (by rw [hmarkid]; exact fun hc => hne hc.symm)]

/-- Witness for C6: a concrete two-batch ledger undoes the newer batch
    first, and an empty ledger returns false unchanged. -/
theorem undoLast_spec_witness :
    undoLast [cBatch2, cBatch1] = ([markBatchUndone cBatch2, cBatch1], true)
    ∧ undoLast ([] : List HistoryBatch) = ([], false) := by
  constructor
  · exact (undoLast_spec.2.2 cBatch1 cBatch2 rfl rfl (by decide)).1
  · exact undoLast_spec.1 [] (by intro b hb; cases hb)

theorem keepFile_none_of_folder {config : OrganizationConfig} {basePath : String}
    {file : FileNode} (h : file.type = "folder") : keepFile config basePath file = none := by
  simp [keepFile, h]

theorem keepFile_none_of_inplace {config : OrganizationConfig} {basePath : String}
    {file : FileNode} {d : String} (h1 : file.type ≠ "folder")
    (hd : getDestinationFolder file config = some d) (h2 : d ≠ "")
    (h3 : file.path = basePath ++ "/" ++ d ++ "/" ++ file.name) :
    keepFile config basePath file = none := by
  simp [keepFile, h1, hd, h2, h3]

theorem keepFile_eq_some {config : OrganizationConfig} {basePath : String} {file : FileNode}
    {t : FileNode × String × String} (h : keepFile config basePath file = some t) :
    t.1 = file ∧ file.type ≠ "folder" ∧ getDestinationFolder file config = some t.2.1
      ∧ t.2.1 ≠ "" ∧ t.2.2 = basePath ++ "/" ++ t.2.1 ++ "/" ++ file.name
      ∧ file.path ≠ t.2.2 := by
  simp only [keepFile] at h
  split at h
  · exact absurd h (by simp)
  · rename_i h1
    split at h
    · exact absurd h (by simp)
    · rename_i d hd
      split at h
      · exact absurd h (by simp)
      · rename_i h2
        split at h
        · exact absurd h (by simp)
        · rename_i h3
          obtain rfl := Option.some.inj h
          exact ⟨rfl, h1, hd, h2, rfl, h3⟩

theorem mem_mapWithIndex {α β : Type} {g : Nat → α → β} {i : Nat} {l : List α} {x : β}
    (h : x ∈ mapWithIndex g i l) : ∃ j a, a ∈ l ∧ x = g j a := by
  induction l generalizing i with
  | nil => simp [mapWithIndex] at h
  | cons a rest ih =>
    simp only [mapWithIndex, List.mem_cons] at h
    rcases h with rfl | h
    · exact ⟨i, a, List.mem_cons_self a rest, rfl⟩
    · obtain ⟨j, b, hb, hx⟩ := ih h
      exact ⟨j, b, List.mem_cons_of_mem a hb, hx⟩

theorem mem_simulate {plan : OrganizationPlan} {now : Date} {x : FileNode}
    (hx : x ∈ simulateFileReorganization plan now) :
    x.type = "folder" ∧ ∀ k ∈ x.children, ∃ op ∈ plan.operations,
      k = FileNode.withPath op.sourceFile op.destinationPath := by
  simp only [simulateFileReorganization] at hx
  obtain ⟨j, a, ha, hxa⟩ := mem_mapWithIndex hx
  subst hxa
  refine ⟨rfl, ?_⟩
  intro k hk
  simp only [FileNode.children] at hk
  obtain ⟨op, hop, hopk⟩ := List.mem_filterMap.mp hk
  refine ⟨op, hop, ?_⟩
  split at hopk
  · split at hopk
    · exact (Option.some.inj hopk).symm
    · exact absurd hopk (by simp)
  · exact absurd hopk (by simp)

/-- Claim C4: generating a plan, applying it through the simulated
    reorganization (each moved file now at its destinationPath, grouped
    under the plan newFolders), and generating again with the same rule
    and root yields a plan with zero operations.  The hypothesis is the
    FileNode well-formedness invariant of the data model: only folder
    nodes carry children. -/
theorem plan_idempotent (files : List FileNode) (config : OrganizationConfig)
    (basePath : String) (ids1 ids2 : Nat → String) (now1 now2 nowSim : Date)
    (hwf : ∀ f ∈ flattenFileTree files, f.type ≠ "folder" → f.children = []) :
    (generateOrganizationPlan
        (simulateFileReorganization
          (generateOrganizationPlan files config basePath ids1 now1) nowSim)
        config basePath ids2 now2).operations = [] := by
  rw [generate_operations_eq]
  have hkept : planKeptFiles
      (simulateFileReorganization
        (generateOrganizationPlan files config basePath ids1 now1) nowSim)
      config basePath = [] := by
    unfold planKeptFiles
    rw [List.filterMap_eq_nil_iff]
    intro x hx
    obtain ⟨n, hn, hcase⟩ := mem_flattenFileTree.mp hx
    obtain ⟨htype, hkids⟩ := mem_simulate hn
    rcases hcase with rfl | hchild
    · exact keepFile_none_of_folder htype
    · obtain ⟨k, hk, hcase2⟩ := mem_flattenFileTree.mp hchild
      obtain ⟨op, hop, rfl⟩ := hkids k hk
      rw [generate_operations_eq] at hop
      obtain ⟨t, ht, hsf, hsp, hdf, hdp, hst⟩ := mem_buildOps hop
      obtain ⟨a, haf, hka⟩ := List.mem_filterMap.mp ht
      obtain ⟨hta, hatype, hadest, hdne, hdpath, hpne⟩ := keepFile_eq_some hka
      have hsa : op.sourceFile = a := by rw [hsf, hta]
      have hchildren : (FileNode.withPath op.sourceFile op.destinationPath).children = [] := by
        rw [FileNode.withPath_children, hsa]
        exact hwf a haf hatype
      rcases hcase2 with rfl | habs
      · apply keepFile_none_of_inplace (d := t.2.1)
        · rw [FileNode.withPath_type, hsa]
          exact hatype
        · rw [getDestinationFolder_withPath, hsa]
          exact hadest
        · exact hdne
        · rw [FileNode.withPath_path, FileNode.withPath_name, hsa, hdp, hdpath]
      · rw [hchildren, flattenFileTree_nil] at habs
        cases habs
  rw [hkept]
  rfl

/-- Witness for C4 on a concrete one-pdf snapshot organized byType. -/
theorem plan_idempotent_witness :
    (generateOrganizationPlan
        (simulateFileReorganization
          (generateOrganizationPlan [wPdf] cfgByType "" demoIds d2024) d2024)
        cfgByType "" demoIds d2024).operations = [] := by
  apply plan_idempotent
  intro f hf hne
  have h1 : flattenFileTree [wPdf] = [wPdf] := by simp [flattenFileTree, wPdf]
  rw [h1] at hf
  have hfw : f = wPdf := List.mem_singleton.mp hf
  subst hfw
  rfl

end AISmartStorage
